import Mathlib

set_option maxRecDepth 8000

/-
Shallow embedding of the report-RAG backend query pipeline.

Source files embedded:
  src/backend/app/utils/helper_functions.py  (extract_keywords, remove_keywords,
                                              highlight_keywords_in_image)
  src/backend/app/services/rag_service.py    (process_pdf_upload, query_rag)

External services (OpenAI chat completions, the colpali/byaldi retrieval model,
pytesseract OCR, the file system) are modelled as explicit inputs: a script of
outcomes for each LLM call, a list of search results, and an OCR oracle mapping
an image to its recognised words.  Machine-level details that no claim touches
(PNG bytes, actual pixel drawing) are abstracted to the list of rectangles the
code draws.
-/

/- ---------------------------------------------------------------------------
Python string primitives
--------------------------------------------------------------------------- -/

/-- Python whitespace: the characters matched by the regex class backslash-s and
removed by str.strip (space, tab, newline, carriage return, vertical tab,
form feed). -/
def pyWS (c : Char) : Bool :=
  c == ' ' || c == '\t' || c == '\n' || c == '\r' || c == Char.ofNat 11 || c == Char.ofNat 12

/-- The single-quote character (code point 39). -/
def squote : Char := Char.ofNat 39

/-- Python str.strip(): drop whitespace from both ends. -/
def pyStrip (l : List Char) : List Char :=
  ((l.dropWhile pyWS).reverse.dropWhile pyWS).reverse

/-- Python str.strip() on a String. -/
def pyStripStr (s : String) : String := String.mk (pyStrip s.data)

/- ---------------------------------------------------------------------------
The keyword marker  (helper_functions.py lines 9-38)

extract_keywords uses  re.search(r'(?i)\*\*keywords:\*\*\s*(.+)', answer)
remove_keywords uses   re.split(r'(?i)\*\*keywords:\*\*', answer, maxsplit=1)
--------------------------------------------------------------------------- -/

/-- The marker pattern in lowercase, as written in the regexes. -/
def markerLower : List Char := ['*', '*', 'k', 'e', 'y', 'w', 'o', 'r', 'd', 's', ':', '*', '*']

/-- The marker as the system prompt spells it. -/
def markerRawL : List Char := ['*', '*', 'K', 'e', 'y', 'w', 'o', 'r', 'd', 's', ':', '*', '*']

/-- Case-insensitive prefix test: does cs start with pattern pat (pat given in
lowercase), comparing each char of cs lowered? -/
def lowerMatch : List Char → List Char → Bool
  | [], _ => true
  | _ :: _, [] => false
  | p :: ps, c :: cs => (c.toLower == p) && lowerMatch ps cs

/-- Does the marker occur at the head of cs (case-insensitively)? -/
def markerHead (cs : List Char) : Bool := lowerMatch markerLower cs

/-- Does the marker occur anywhere in cs (case-insensitively)? -/
def containsMarkerL : List Char → Bool
  | [] => false
  | c :: rest => markerHead (c :: rest) || containsMarkerL rest

/-- Does the marker occur anywhere in s (case-insensitively)? -/
def containsMarker (s : String) : Bool := containsMarkerL s.data

/-- Number of (possibly overlapping) marker occurrences in cs. -/
def countMarkersL : List Char → Nat
  | [] => 0
  | c :: rest => (if markerHead (c :: rest) then 1 else 0) + countMarkersL rest

/-- Number of marker occurrences in s. -/
def countMarkers (s : String) : Nat := countMarkersL s.data

/-- Everything before the first marker occurrence; the whole list when the
marker is absent.  This is parts[0] of re.split(marker, answer, maxsplit=1). -/
def beforeMarker : List Char → List Char
  | [] => []
  | c :: rest => if markerHead (c :: rest) then [] else c :: beforeMarker rest

/-- No position strictly inside p starts a marker occurrence of p ++ rest. -/
def noMarkerWithin : List Char → List Char → Bool
  | [], _ => true
  | c :: p, rest => !(markerHead (c :: (p ++ rest))) && noMarkerWithin p rest

/-- The text captured by the group in  backslash-s* (.+)  when matched against
rest (the text after the marker), with the greedy backtracking semantics of
Python re: the star first consumes the maximal whitespace run, then gives
characters back until .+ (one or more non-newline characters) can match.
When rest is not all whitespace the group runs from the first non-whitespace
character to the next newline or the end.  When rest is all whitespace the
group is the last character of rest that is not a newline (every later
character is a newline), and the overall match fails if there is none. -/
def group1 (rest : List Char) : Option (List Char) :=
  match rest.dropWhile pyWS with
  | [] =>
    match rest.reverse.dropWhile (fun c => c == '\n') with
    | [] => none
    | c :: _ => some [c]
  | c :: suf => some ((c :: suf).takeWhile (fun d => d != '\n'))

/-- re.search of  (?i)marker backslash-s* (.+)  over cs: scan left to right for
a position where the whole pattern matches and return the group. -/
def searchKeywords : List Char → Option (List Char)
  | [] => none
  | c :: rest =>
    if markerHead (c :: rest) then
      match group1 (List.drop markerLower.length (c :: rest)) with
      | some g => some g
      | none => searchKeywords rest
    else searchKeywords rest

/-- re.findall of a single-quoted group (one or more non-quote characters
between two single quotes), as a left-to-right scan: outside a quote (state
none) an opening quote enters the quoted state; inside (state some acc, the
accumulated content reversed) a closing quote emits the content when it is
non-empty — on an empty content the match fails and the scan restarts at the
closing quote, which opens a new candidate match, exactly as re.findall
resumes at the next position.  An unterminated quote yields no further match
(its content chars cannot start one). -/
def findQuotedAux : Option (List Char) → List Char → List (List Char)
  | none, [] => []
  | none, c :: rest =>
    if c == squote then findQuotedAux (some []) rest else findQuotedAux none rest
  | some _, [] => []
  | some acc, c :: rest =>
    if c == squote then
      if acc.isEmpty then findQuotedAux (some []) rest
      else acc.reverse :: findQuotedAux none rest
    else findQuotedAux (some (c :: acc)) rest

/-- re.findall of a single-quoted group over cs. -/
def findQuoted (cs : List Char) : List (List Char) := findQuotedAux none cs

/-- helper_functions.extract_keywords (lines 9-24). -/
def extract_keywords (answer : String) : List String :=
  match searchKeywords answer.data with
  | some keywordsText => (findQuoted keywordsText).map String.mk
  | none => []

/-- helper_functions.remove_keywords (lines 27-38): split at the first
case-insensitive marker occurrence and return parts[0].strip(). -/
def remove_keywords (answer : String) : String :=
  String.mk (pyStrip (beforeMarker answer.data))

/- ---------------------------------------------------------------------------
Round-trip vocabulary (modelled from the spec wording of section 8:
"re-appended keyword section", "up to whitespace normalization")
--------------------------------------------------------------------------- -/

/-- Render a keyword list the way the system prompt formats it:
quoted tokens separated by comma-space. -/
def renderL : List (List Char) → List Char
  | [] => []
  | [k] => squote :: (k ++ [squote])
  | k :: ks => squote :: (k ++ squote :: ',' :: ' ' :: renderL ks)

/-- Render a keyword list of Strings. -/
def renderStr (ks : List String) : String := String.mk (renderL (ks.map String.data))

/-- Modelled from the spec: the "re-appended keyword section" built from an
extracted keyword list — empty when no keywords, else the marker followed by
the rendered quoted list. -/
def reappendSection (ks : List String) : String :=
  if ks.isEmpty then "" else " **Keywords:** " ++ renderStr ks

/-- Delete every whitespace character. -/
def noWS (l : List Char) : List Char := l.filter (fun c => !(pyWS c))

/-- Modelled from the spec: comparison "up to whitespace normalization" is
equality after deleting all whitespace. -/
def normNoWS (s : String) : List Char := noWS s.data

/- ---------------------------------------------------------------------------
highlight_keywords_in_image  (helper_functions.py lines 41-81)
--------------------------------------------------------------------------- -/

/-- One OCR word from pytesseract.image_to_data: the text and its box. -/
structure OcrWord where
  text : String
  left : Nat
  top : Nat
  width : Nat
  height : Nat
deriving DecidableEq

/-- A rectangle [left, top, left+width, top+height] drawn on an image. -/
structure Rect where
  left : Nat
  top : Nat
  right : Nat
  bottom : Nat
deriving DecidableEq

/-- Lowercase every character (Python str.lower on ASCII). -/
def toLowerL (l : List Char) : List Char := l.map Char.toLower

/-- Python str.replace of a space by the empty string: delete space characters
(only U+0020, not other whitespace). -/
def removeSpaces (l : List Char) : List Char := l.filter (fun c => c != ' ')

/-- Python substring containment (needle in hay). -/
def substrOf (needle : List Char) : List Char → Bool
  | [] => needle.isEmpty
  | c :: t => needle.isPrefixOf (c :: t) || substrOf needle t

/-- keyword.replace(' ', '').lower() -/
def codeNormKw (k : String) : List Char := toLowerL (removeSpaces k.data)

/-- data['text'][i].strip() followed by .replace(' ', '').lower() -/
def codeNormWord (t : String) : List Char := toLowerL (removeSpaces (pyStrip t.data))

/-- The highlight condition of helper_functions.py lines 62-68. -/
def wordMatched (keywords : List String) (t : String) : Bool :=
  keywords.any (fun k => substrOf (codeNormKw k) (codeNormWord t))

/-- The rectangle drawn for a matched word (lines 69-75). -/
def mkRect (w : OcrWord) : Rect := ⟨w.left, w.top, w.left + w.width, w.top + w.height⟩

/-- Python str.split(sep) on a character separator. -/
def splitOnChar (sep : Char) : List Char → List (List Char)
  | [] => [[]]
  | c :: rest =>
    if c == sep then [] :: splitOnChar sep rest
    else
      match splitOnChar sep rest with
      | [] => [[c]]
      | g :: gs => (c :: g) :: gs

/-- image_b64.startswith('data:image') -/
def dataUrlHead (s : String) : Bool := "data:image".data.isPrefixOf s.data

/-- Lines 47-49: when the string has a data URL header take split(',')[1];
none models the IndexError raised when there is no comma. -/
def stripDataUrl (s : String) : Option String :=
  if dataUrlHead s then ((splitOnChar ',' s.data).map String.mk).get? 1 else some s

/-- helper_functions.highlight_keywords_in_image, abstracted to the list of
rectangles drawn (in OCR order); the OCR service is an oracle from the decoded
image to its words; none models a raised exception. -/
def highlight_keywords_in_image (ocr : String → List OcrWord) (imageB64 : String)
    (keywords : List String) : Option (List Rect) :=
  match stripDataUrl imageB64 with
  | none => none
  | some b64 => some (((ocr b64).filter (fun w => wordMatched keywords w.text)).map mkRect)

/-- A Python list comprehension: the first raised exception aborts the whole
list. -/
def sequenceOpt {α : Type} : List (Option α) → Option (List α)
  | [] => some []
  | none :: _ => none
  | some a :: rest =>
    match sequenceOpt rest with
    | none => none
    | some l => some (a :: l)

/-- rag_service.py lines 235-243:  if keywords: highlight result_images[i] for
i in range(min(2, len(result_images))) else [].  The constant 2 is
num_images_to_highlight. -/
def annotateStage (ocr : String → List OcrWord) (resultImages : List String)
    (keywords : List String) : Option (List (List Rect)) :=
  if keywords.isEmpty then some []
  else sequenceOpt ((List.range (min 2 resultImages.length)).map
    (fun i => highlight_keywords_in_image ocr (resultImages.getD i "") keywords))

/-- Modelled from the spec: the claimed normalization "lowercase, whitespace
removed" — all whitespace characters deleted, then lowercased. -/
def specNorm (s : String) : List Char := toLowerL (s.data.filter (fun c => !(pyWS c)))

/-- Modelled from the spec: a word matches when its normalized form contains
some normalized keyword as a substring. -/
def specMatched (keywords : List String) (t : String) : Bool :=
  keywords.any (fun k => substrOf (specNorm k) (specNorm t))

/-- A sample OCR oracle used by witnesses. -/
def ocrSample : String → List OcrWord := fun _ => [⟨"Revenue", 5, 6, 7, 8⟩]

/- ---------------------------------------------------------------------------
query_rag  (rag_service.py lines 76-248)
--------------------------------------------------------------------------- -/

/-- Outcome of one openai.chat.completions.create attempt, as seen by the
try/except blocks of query_rag. -/
inductive LLMOutcome where
  | success (content : String)
  | timeout
  | apiError (status : Nat)
  | otherError
deriving DecidableEq

/-- The exceptions query_rag can let escape. -/
inductive RagError where
  | indexError
  | fatalAPIError
  | unexpectedError
  | unboundLocal
  | scriptExhausted
deriving DecidableEq

/-- Result of a retry loop: content plus number of retries (= sleeps), or an
escaped exception plus the number of attempts made. -/
inductive RetryResult where
  | ok (content : String) (retries : Nat)
  | err (e : RagError) (attempts : Nat)
deriving DecidableEq

/-- e.status_code in {502, 503, 504, 429}  (lines 130 and 217). -/
def retryableStatus (s : Nat) : Bool := s == 502 || s == 503 || s == 504 || s == 429

/-- Account for one failed attempt before the recursive retry. -/
def bumpRetry : RetryResult → RetryResult
  | .ok c n => .ok c (n + 1)
  | .err e k => .err e (k + 1)

/-- The while True retry loop of lines 108-143 and 204-228, driven by a finite
script of upstream outcomes (scriptExhausted models running off the script).
delayBound records whether the local variable retry_delay has been assigned:
it is assigned only at line 107, inside the len(messages) > 1 branch, and every
transient-failure handler of both loops reads it (in the log f-string and in
asyncio.sleep), so with delayBound false a transient failure raises
UnboundLocalError instead of sleeping and retrying. -/
def runRetry (delayBound : Bool) : List LLMOutcome → RetryResult
  | [] => .err .scriptExhausted 0
  | .success c :: _ => .ok c 0
  | .timeout :: rest =>
    if delayBound then bumpRetry (runRetry delayBound rest) else .err .unboundLocal 1
  | .apiError s :: rest =>
    if retryableStatus s then
      if delayBound then bumpRetry (runRetry delayBound rest) else .err .unboundLocal 1
    else .err .fatalAPIError 1
  | .otherError :: _ => .err .unexpectedError 1

/-- One result of colpali_model.search(query, k=5); the code reads only
result['base64'], the retrieval contract also carries doc_id and page. -/
structure SearchResult where
  docId : Nat
  page : Nat
  base64 : String
deriving DecidableEq

/-- The inputs of one query_rag request: the message contents of the request
body, the outcome scripts of the two LLM call sites, the retrieval response,
and the OCR oracle. -/
structure RagInput where
  messages : List String
  ctxScript : List LLMOutcome
  ansScript : List LLMOutcome
  searchResults : List SearchResult
  ocr : String → List OcrWord

/-- Observable side effects of one query_rag run: number of LLM calls and
backoff sleeps at each call site, the query handed to search, and the number
of search calls. -/
structure RagTrace where
  ctxCalls : Nat
  ctxSleeps : Nat
  searchQuery : Option String
  searchCalls : Nat
  ansCalls : Nat
  ansSleeps : Nat
deriving DecidableEq

/-- Trace of a run that performed no external call. -/
def emptyTrace : RagTrace := ⟨0, 0, none, 0, 0, 0⟩

/-- A value of the returned JSON object. -/
inductive RespVal where
  | s (v : String)
  | imgs (v : List (List Rect))
deriving DecidableEq

/-- Result of the context-extraction step (lines 87-145). -/
structure CtxOut where
  relevantContext : String
  calls : Nat
  sleeps : Nat
  err : Option RagError

/-- Lines 87-145: with more than one message run the context-extraction LLM
call under the retry loop and strip the content; otherwise relevant_context is
the empty string with no LLM call. -/
def ctxStage (messages : List String) (script : List LLMOutcome) : CtxOut :=
  if messages.length > 1 then
    match runRetry true script with
    | .ok c n => ⟨pyStripStr c, n + 1, n, none⟩
    | .err e k => ⟨"", k, k - 1, some e⟩
  else ⟨"", 0, 0, none⟩

/-- Lines 148-150: query = relevant_context + newline + current_query if
relevant_context (truthy, i.e. non-empty) else current_query. -/
def combineQuery (relevantContext currentQuery : String) : String :=
  if relevantContext = "" then currentQuery else relevantContext ++ "\n" ++ currentQuery

/-- rag_service.query_rag (lines 76-248).  messages[-1] on an empty list raises
IndexError (line 84).  The second retry loop runs with retry_delay bound only
when len(messages) > 1.  The returned dict of line 245-248 is the association
list; it has exactly the keys answer and highlighted_images. -/
def queryRag (inp : RagInput) : RagTrace × Except RagError (List (String × RespVal)) :=
  match inp.messages.getLast? with
  | none => (emptyTrace, .error .indexError)
  | some currentQuery =>
    let ctx := ctxStage inp.messages inp.ctxScript
    match ctx.err with
    | some e => ({ emptyTrace with ctxCalls := ctx.calls, ctxSleeps := ctx.sleeps }, .error e)
    | none =>
      let query := combineQuery ctx.relevantContext currentQuery
      let resultImages := inp.searchResults.map (fun r => r.base64)
      let baseTrace : RagTrace :=
        { ctxCalls := ctx.calls, ctxSleeps := ctx.sleeps, searchQuery := some query,
          searchCalls := 1, ansCalls := 0, ansSleeps := 0 }
      match runRetry (decide (inp.messages.length > 1)) inp.ansScript with
      | .err e k => ({ baseTrace with ansCalls := k, ansSleeps := k - 1 }, .error e)
      | .ok answer n =>
        let keywords := extract_keywords answer
        let cleanAnswer := remove_keywords answer
        match annotateStage inp.ocr resultImages keywords with
        | none => ({ baseTrace with ansCalls := n + 1, ansSleeps := n }, .error .indexError)
        | some hs =>
          ({ baseTrace with ansCalls := n + 1, ansSleeps := n },
            .ok [("answer", .s cleanAnswer), ("highlighted_images", .imgs hs)])

/- ---------------------------------------------------------------------------
process_pdf_upload  (rag_service.py lines 16-42)
--------------------------------------------------------------------------- -/

/-- fastapi.HTTPException with status code and detail. -/
structure HttpError where
  status : Nat
  detail : String
deriving DecidableEq

/-- Split a client filename into path components the way pathlib does when
joining: split on the slash, dropping empty segments and single dots. -/
def splitComponents (fname : String) : List String :=
  ((splitOnChar '/' fname.data).map String.mk).filter (fun s => s != "" && s != ".")

/-- Does the filename start with a slash (an absolute path)? -/
def isAbsFilename (fname : String) : Bool :=
  match fname.data with
  | c :: _ => c == '/'
  | [] => false

/-- The fixed upload directory (line 24-26), as components relative to the
project root. -/
def uploadedDirParts : List String := ["data", "uploaded"]

/-- pathlib's slash operator (line 28): joining an absolute filename replaces
the whole path, otherwise the components are appended verbatim. -/
def joinPath (dir : List String) (fname : String) : List String :=
  if isAbsFilename fname then splitComponents fname else dir ++ splitComponents fname

/-- The side effects of process_pdf_upload, in order (lines 27-38). -/
inductive UploadEffect where
  | mkdirUploaded
  | writeFile (path : List String)
  | indexCall (path : List String)
deriving DecidableEq

/-- rag_service.process_pdf_upload (lines 16-42): reject a non-PDF content
type with HTTP 400 before any effect; otherwise mkdir, write the bytes to
uploaded_path / file.filename, and index that path. -/
def process_pdf_upload (contentType fname : String) : List UploadEffect × Except HttpError String :=
  if contentType ≠ "application/pdf" then
    ([], .error ⟨400, "Only PDF files are allowed."⟩)
  else
    ([.mkdirUploaded, .writeFile (joinPath uploadedDirParts fname),
      .indexCall (joinPath uploadedDirParts fname)],
      .ok "PDF uploaded and processed")

/-- Resolve dot-dot and dot components against the file system, as the kernel
does when the write happens. -/
def resolvePath (parts : List String) : List String :=
  parts.foldl (fun acc c => if c = ".." then acc.dropLast else if c = "." then acc else acc ++ [c]) []

/-- Does the resolved path stay inside the data/uploaded directory? -/
def insideUploaded (parts : List String) : Bool :=
  uploadedDirParts.isPrefixOf (resolvePath parts)

/- ---------------------------------------------------------------------------
Lemmas about the marker scan
--------------------------------------------------------------------------- -/

lemma markerHeadAppend (t : List Char) : markerHead (markerRawL ++ t) = true := rfl

lemma searchNone : ∀ {cs : List Char}, containsMarkerL cs = false → searchKeywords cs = none := by
  intro cs
  induction cs with
  | nil => intro _; rfl
  | cons c rest ih =>
    intro h
    rw [containsMarkerL, Bool.or_eq_false_iff] at h
    simp [searchKeywords, h.1, ih h.2]

lemma beforeId : ∀ {cs : List Char}, containsMarkerL cs = false → beforeMarker cs = cs := by
  intro cs
  induction cs with
  | nil => intro _; rfl
  | cons c rest ih =>
    intro h
    rw [containsMarkerL, Bool.or_eq_false_iff] at h
    simp [beforeMarker, h.1, ih h.2]

lemma beforeMarkerNil {cs : List Char} (h : markerHead cs = true) : beforeMarker cs = [] := by
  cases cs with
  | nil => exact absurd h (by decide)
  | cons c rest => simp [beforeMarker, h]

lemma beforeMarkerSplit : ∀ (p t : List Char), noMarkerWithin p (markerRawL ++ t) = true →
    beforeMarker (p ++ (markerRawL ++ t)) = p := by
  intro p
  induction p with
  | nil =>
    intro t _
    rw [List.nil_append]
    exact beforeMarkerNil (markerHeadAppend t)
  | cons c p ih =>
    intro t hn
    rw [noMarkerWithin, Bool.and_eq_true, Bool.not_eq_true'] at hn
    simp [beforeMarker, hn.1, ih t hn.2]

lemma dropLenAppend {α : Type} (l₁ l₂ : List α) : List.drop l₁.length (l₁ ++ l₂) = l₂ := by
  induction l₁ with
  | nil => rfl
  | cons a l ih =>
    rw [List.length_cons, List.cons_append, List.drop_succ_cons]
    exact ih

lemma searchFound {cs g : List Char} (h : markerHead cs = true)
    (hg : group1 (List.drop markerLower.length cs) = some g) : searchKeywords cs = some g := by
  cases cs with
  | nil => exact absurd h (by decide)
  | cons c rest => simp [searchKeywords, h, hg]

lemma searchSplit : ∀ (p t g : List Char), group1 t = some g →
    noMarkerWithin p (markerRawL ++ t) = true →
    searchKeywords (p ++ (markerRawL ++ t)) = some g := by
  intro p
  induction p with
  | nil =>
    intro t g hg _
    refine searchFound (markerHeadAppend t) ?_
    have hlen : markerLower.length = markerRawL.length := rfl
    rw [List.nil_append, hlen, dropLenAppend markerRawL t]
    exact hg
  | cons c p ih =>
    intro t g hg hn
    rw [noMarkerWithin, Bool.and_eq_true, Bool.not_eq_true'] at hn
    simp [searchKeywords, hn.1]
    exact ih t g hg hn.2

/- ---------------------------------------------------------------------------
Claim C5
--------------------------------------------------------------------------- -/

/-- Claim C5: extract_keywords on the spec's example answer returns exactly
the three quoted keywords, and on any answer not containing the
case-insensitive marker it returns the empty list. -/
theorem c5_extract_keywords :
    extract_keywords ("**Keywords:** 'Apple', 'CEO', '$1,321,368'") = ["Apple", "CEO", "$1,321,368"]
    ∧ ∀ a : String, containsMarker a = false → extract_keywords a = [] := by
  refine ⟨rfl, ?_⟩
  intro a h
  unfold extract_keywords
  rw [searchNone h]

/-- Witness for C5: a concrete marker-free answer evaluates to the empty
keyword list. -/
theorem c5_extract_keywords_witness :
    extract_keywords ("The Q3 budget was 2 million.") = [] :=
  c5_extract_keywords.2 ("The Q3 budget was 2 million.") (by decide)

/- ---------------------------------------------------------------------------
Claim C6
--------------------------------------------------------------------------- -/

/-- Counterexample for C6 as stated: an answer without the marker is not
returned unchanged — remove_keywords also strips surrounding whitespace. -/
theorem c6_counterexample :
    containsMarker ("  hello  ") = false
    ∧ remove_keywords ("  hello  ") = "hello"
    ∧ ("hello" : String) ≠ "  hello  " := by
  exact ⟨by decide, by decide, by decide⟩

/-- Claim C6 (amended): with the marker present, remove_keywords returns the
text before its first occurrence trimmed of leading and trailing whitespace;
with the marker absent, it returns the whole answer likewise trimmed of
leading and trailing whitespace (so unchanged only up to surrounding
whitespace). -/
theorem c6_amended :
    (∀ p s : String, noMarkerWithin p.data (markerRawL ++ s.data) = true →
      remove_keywords (p ++ "**Keywords:**" ++ s) = pyStripStr p)
    ∧ (∀ a : String, containsMarker a = false → remove_keywords a = pyStripStr a) := by
  constructor
  · intro p s h
    have hd : (p ++ "**Keywords:**" ++ s).data = p.data ++ (markerRawL ++ s.data) := by
      show (p.data ++ markerRawL) ++ s.data = p.data ++ (markerRawL ++ s.data)
      exact List.append_assoc _ _ _
    show String.mk (pyStrip (beforeMarker (p ++ "**Keywords:**" ++ s).data)) = pyStripStr p
    rw [hd, beforeMarkerSplit p.data s.data h]
    rfl
  · intro a h
    show String.mk (pyStrip (beforeMarker a.data)) = pyStripStr a
    rw [beforeId h]
    rfl

/-- Witness for C6 (amended), at a concrete answer with one marker. -/
theorem c6_amended_witness :
    remove_keywords ("  The answer is 42.  " ++ "**Keywords:**" ++ " 'x'")
      = pyStripStr ("  The answer is 42.  ") :=
  c6_amended.1 ("  The answer is 42.  ") (" 'x'") (by decide)

/- ---------------------------------------------------------------------------
Claim C8
--------------------------------------------------------------------------- -/

/-- Claim C8: a non-PDF content type is rejected with HTTP 400 before any
side effect — the effect trace is empty, so no file write, no indexing and no
embedding call happen. -/
theorem c8_non_pdf_rejected (ct fn : String) (h : ct ≠ "application/pdf") :
    process_pdf_upload ct fn = ([], .error ⟨400, "Only PDF files are allowed."⟩) := by
  unfold process_pdf_upload
  rw [if_pos h]

/-- Witness for C8 at a concrete non-PDF upload. -/
theorem c8_non_pdf_rejected_witness :
    process_pdf_upload "text/plain" "notes.txt" = ([], .error ⟨400, "Only PDF files are allowed."⟩) :=
  c8_non_pdf_rejected "text/plain" "notes.txt" (by decide)

/- ---------------------------------------------------------------------------
Claim C10
--------------------------------------------------------------------------- -/

/-- Counterexample for C10 as stated: the write path for the accepted upload
of filename ../../evil.pdf is the verbatim join, and its resolution escapes
the data/uploaded directory. -/
theorem c10_counterexample :
    (process_pdf_upload "application/pdf" "../../evil.pdf").1
      = [.mkdirUploaded, .writeFile ["data", "uploaded", "..", "..", "evil.pdf"],
         .indexCall ["data", "uploaded", "..", "..", "evil.pdf"]]
    ∧ insideUploaded ["data", "uploaded", "..", "..", "evil.pdf"] = false := by
  exact ⟨by decide, by decide⟩

/-- Claim C10 (amended): every accepted upload writes to the verbatim join of
data/uploaded with the client filename, with no sanitization; the resulting
path does not always stay inside data/uploaded — dot-dot filenames escape. -/
theorem c10_amended :
    (∀ fn : String, (process_pdf_upload "application/pdf" fn).1
      = [.mkdirUploaded, .writeFile (joinPath uploadedDirParts fn),
         .indexCall (joinPath uploadedDirParts fn)])
    ∧ insideUploaded (joinPath uploadedDirParts ("../../evil.pdf")) = false := by
  exact ⟨fun fn => rfl, by decide⟩

/- ---------------------------------------------------------------------------
Lemmas about whitespace deletion and the rendered keyword section
--------------------------------------------------------------------------- -/

lemma noWSAppend (a b : List Char) : noWS (a ++ b) = noWS a ++ noWS b := by
  simp [noWS, List.filter_append]

lemma noWSDropWS : ∀ l : List Char, noWS (l.dropWhile pyWS) = noWS l := by
  intro l
  induction l with
  | nil => rfl
  | cons c t ih =>
    rw [List.dropWhile_cons]
    by_cases hc : pyWS c = true
    · rw [if_pos hc, ih]
      simp [noWS, List.filter_cons, hc]
    · rw [if_neg hc]

lemma noWSReverse (l : List Char) : noWS l.reverse = (noWS l).reverse := by
  simp [noWS, List.filter_reverse]

lemma noWSStrip (l : List Char) : noWS (pyStrip l) = noWS l := by
  unfold pyStrip
  rw [noWSReverse, noWSDropWS, noWSReverse, List.reverse_reverse, noWSDropWS]

lemma renderHead (k : List Char) (ks : List (List Char)) :
    ∃ t, renderL (k :: ks) = squote :: t := by
  cases ks with
  | nil => exact ⟨_, rfl⟩
  | cons k2 ks2 => exact ⟨_, rfl⟩

lemma renderNoNl : ∀ L : List (List Char), (∀ k ∈ L, ('\n' : Char) ∉ k) →
    ('\n' : Char) ∉ renderL L := by
  intro L
  induction L with
  | nil =>
    intro _ hm
    simp [renderL] at hm
  | cons k ks ih =>
    intro h
    have hk := h k (by simp)
    cases ks with
    | nil =>
      intro hmem
      rcases List.mem_cons.mp hmem with h1 | h2
      · exact absurd h1 (by decide)
      · rcases List.mem_append.mp h2 with h3 | h4
        · exact hk h3
        · exact absurd (List.mem_singleton.mp h4) (by decide)
    | cons k2 ks2 =>
      intro hmem
      rcases List.mem_cons.mp hmem with h1 | h2
      · exact absurd h1 (by decide)
      · rcases List.mem_append.mp h2 with h3 | h4
        · exact hk h3
        · rcases List.mem_cons.mp h4 with h5 | h6
          · exact absurd h5 (by decide)
          · rcases List.mem_cons.mp h6 with h7 | h8
            · exact absurd h7 (by decide)
            · rcases List.mem_cons.mp h8 with h9 | h10
              · exact absurd h9 (by decide)
              · exact ih (fun x hx => h x (List.mem_cons_of_mem k hx)) h10

lemma takeWhileNoNl : ∀ l : List Char, ('\n' : Char) ∉ l →
    l.takeWhile (fun d => d != '\n') = l := by
  intro l
  induction l with
  | nil => intro _; rfl
  | cons c t ih =>
    intro h
    have hc : (c != '\n') = true := by
      simp only [bne_iff_ne, ne_eq]
      intro hcc
      exact h (by simp [hcc])
    rw [List.takeWhile_cons, hc]
    simp only [if_true]
    rw [ih (fun hm => h (List.mem_cons_of_mem c hm))]

lemma groupRender (t : List Char) (h : ('\n' : Char) ∉ t) :
    group1 (' ' :: squote :: t) = some (squote :: t) := by
  have h1 : (' ' :: squote :: t).dropWhile pyWS = squote :: t := by
    rw [List.dropWhile_cons, if_pos (by decide : pyWS ' ' = true),
        List.dropWhile_cons, if_neg (by decide : ¬ pyWS squote = true)]
  have h2 : ('\n' : Char) ∉ squote :: t := by
    intro hm
    rcases List.mem_cons.mp hm with h3 | h4
    · exact absurd h3 (by decide)
    · exact h h4
  unfold group1
  rw [h1]
  exact congrArg some (takeWhileNoNl (squote :: t) h2)

lemma findQuotedTok : ∀ (k acc rest : List Char), squote ∉ k →
    acc.reverse ++ k ≠ [] →
    findQuotedAux (some acc) (k ++ squote :: rest)
      = (acc.reverse ++ k) :: findQuotedAux none rest := by
  intro k
  induction k with
  | nil =>
    intro acc rest _ hne
    have hacc : acc.isEmpty = false := by
      cases acc with
      | nil => simp at hne
      | cons a t => rfl
    simp [findQuotedAux, hacc]
  | cons c k ih =>
    intro acc rest hq hne
    have hc : (c == squote) = false := by
      simp only [beq_eq_false_iff_ne, ne_eq]
      intro hcc
      exact hq (by simp [hcc])
    have hne2 : (c :: acc).reverse ++ k ≠ [] := by simp
    rw [List.cons_append]
    show findQuotedAux (some acc) (c :: (k ++ squote :: rest))
        = (acc.reverse ++ c :: k) :: findQuotedAux none rest
    rw [findQuotedAux, hc]
    simp only [Bool.false_eq_true, if_false]
    rw [ih (c :: acc) rest (fun hm => hq (List.mem_cons_of_mem c hm)) hne2]
    simp [List.reverse_cons, List.append_assoc]

lemma findQuotedRender : ∀ L : List (List Char),
    (∀ k ∈ L, k ≠ [] ∧ squote ∉ k) → findQuotedAux none (renderL L) = L := by
  intro L
  induction L with
  | nil => intro _; rfl
  | cons k ks ih =>
    intro h
    obtain ⟨hk1, hk2⟩ := h k (by simp)
    cases ks with
    | nil =>
      show findQuotedAux none (squote :: (k ++ [squote])) = [k]
      rw [findQuotedAux]
      simp only [beq_self_eq_true, if_true]
      rw [findQuotedTok k [] [] hk2 (by simpa using hk1)]
      simp [findQuotedAux]
    | cons k2 ks2 =>
      show findQuotedAux none
          (squote :: (k ++ squote :: ',' :: ' ' :: renderL (k2 :: ks2))) = k :: k2 :: ks2
      rw [findQuotedAux]
      simp only [beq_self_eq_true, if_true]
      rw [findQuotedTok k [] (',' :: ' ' :: renderL (k2 :: ks2)) hk2 (by simpa using hk1)]
      rw [findQuotedAux, (by decide : ((',' : Char) == squote) = false)]
      simp only [Bool.false_eq_true, if_false]
      rw [findQuotedAux, (by decide : ((' ' : Char) == squote) = false)]
      simp only [Bool.false_eq_true, if_false]
      rw [ih (fun x hx => h x (List.mem_cons_of_mem k hx))]
      simp

/- ---------------------------------------------------------------------------
Claim C7
--------------------------------------------------------------------------- -/

/-- Counterexample for C7 as stated: an answer with exactly one marker whose
tail is not a quoted keyword list loses that tail in the round trip — the
reconstruction differs from the original by more than whitespace. -/
theorem c7_counterexample :
    countMarkers ("x **Keywords:** abc") = 1
    ∧ normNoWS (remove_keywords ("x **Keywords:** abc")
        ++ reappendSection (extract_keywords ("x **Keywords:** abc")))
      ≠ normNoWS ("x **Keywords:** abc") := by
  exact ⟨by decide, by decide⟩

/-- Claim C7 (amended): the round trip reconstructs the answer up to
whitespace normalization for answers made of marker-free text followed by the
marker and a well-formed single-quoted keyword list (non-empty keywords
without quotes or newlines). -/
theorem c7_amended (p : String) (ks : List String)
    (hne : ks ≠ [])
    (hgood : ∀ k ∈ ks, k.data ≠ [] ∧ squote ∉ k.data ∧ ('\n' : Char) ∉ k.data)
    (hn : noMarkerWithin p.data (markerRawL ++ (' ' :: renderL (ks.map String.data))) = true) :
    normNoWS (remove_keywords (p ++ "**Keywords:** " ++ renderStr ks)
        ++ reappendSection (extract_keywords (p ++ "**Keywords:** " ++ renderStr ks)))
      = normNoWS (p ++ "**Keywords:** " ++ renderStr ks) := by
  have hd : (p ++ "**Keywords:** " ++ renderStr ks).data
      = p.data ++ (markerRawL ++ (' ' :: renderL (ks.map String.data))) := by
    show (p.data ++ (markerRawL ++ [' '])) ++ renderL (ks.map String.data)
        = p.data ++ (markerRawL ++ (' ' :: renderL (ks.map String.data)))
    simp [List.append_assoc]
  have hrender : findQuotedAux none (renderL (ks.map String.data)) = ks.map String.data := by
    refine findQuotedRender _ ?_
    intro k hk
    rcases List.mem_map.mp hk with ⟨x, hx, rfl⟩
    exact ⟨fun hxe => (hgood x hx).1 hxe, (hgood x hx).2.1⟩
  have hnl : ('\n' : Char) ∉ renderL (ks.map String.data) := by
    refine renderNoNl _ ?_
    intro k hk
    rcases List.mem_map.mp hk with ⟨x, hx, rfl⟩
    exact (hgood x hx).2.2
  obtain ⟨k0, ks2, rfl⟩ : ∃ k0 ks2, ks = k0 :: ks2 := by
    cases ks with
    | nil => exact absurd rfl hne
    | cons a b => exact ⟨a, b, rfl⟩
  obtain ⟨t, ht⟩ := renderHead k0.data (ks2.map String.data)
  have hg : group1 (' ' :: renderL ((k0 :: ks2).map String.data))
      = some (renderL ((k0 :: ks2).map String.data)) := by
    have ht2 : renderL ((k0 :: ks2).map String.data) = squote :: t := ht
    rw [ht2]
    refine groupRender t ?_
    intro hm
    rw [ht2] at hnl
    exact hnl (List.mem_cons_of_mem squote hm)
  have hsearch : searchKeywords ((p ++ "**Keywords:** " ++ renderStr (k0 :: ks2)).data)
      = some (renderL ((k0 :: ks2).map String.data)) := by
    rw [hd]
    exact searchSplit p.data (' ' :: renderL ((k0 :: ks2).map String.data)) _ hg hn
  have hex : extract_keywords (p ++ "**Keywords:** " ++ renderStr (k0 :: ks2)) = k0 :: ks2 := by
    unfold extract_keywords
    rw [hsearch]
    show (findQuoted (renderL ((k0 :: ks2).map String.data))).map String.mk = k0 :: ks2
    unfold findQuoted
    rw [hrender, List.map_map]
    have hid : (String.mk ∘ String.data) = id := funext (fun s => rfl)
    rw [hid, List.map_id]
  have hrm : remove_keywords (p ++ "**Keywords:** " ++ renderStr (k0 :: ks2))
      = String.mk (pyStrip p.data) := by
    unfold remove_keywords
    rw [hd, beforeMarkerSplit p.data _ hn]
  rw [hex, hrm]
  have hre : reappendSection (k0 :: ks2) = " **Keywords:** " ++ renderStr (k0 :: ks2) := rfl
  rw [hre]
  unfold normNoWS
  show noWS (pyStrip p.data ++ ((' ' :: (markerRawL ++ [' '])) ++ renderL ((k0 :: ks2).map String.data)))
      = noWS ((p ++ "**Keywords:** " ++ renderStr (k0 :: ks2)).data)
  rw [hd]
  simp only [noWSAppend, noWSStrip]
  have hm1 : noWS (' ' :: (markerRawL ++ [' '])) = markerRawL := by decide
  have hm2 : noWS markerRawL = markerRawL := by decide
  have hm3 : noWS (' ' :: renderL ((k0 :: ks2).map String.data))
      = noWS (renderL ((k0 :: ks2).map String.data)) := by
    simp [noWS, List.filter_cons, pyWS]
  rw [hm1, hm2, hm3]

/-- Witness for C7 (amended) at a concrete well-formed answer. -/
theorem c7_amended_witness :
    normNoWS (remove_keywords ("Total was 5." ++ "**Keywords:** " ++ renderStr ["Total", "5"])
        ++ reappendSection (extract_keywords ("Total was 5." ++ "**Keywords:** " ++ renderStr ["Total", "5"])))
      = normNoWS ("Total was 5." ++ "**Keywords:** " ++ renderStr ["Total", "5"]) :=
  c7_amended ("Total was 5.") ["Total", "5"] (by decide) (by decide) (by decide)

/- ---------------------------------------------------------------------------
Claim C9
--------------------------------------------------------------------------- -/

lemma rangeMinTwoMap {β : Type} (l : List String) (f : String → β) :
    (List.range (min 2 l.length)).map (fun i => f (l.getD i "")) = (l.take 2).map f := by
  match l with
  | [] => rfl
  | [a] => rfl
  | a :: b :: t =>
    have h2 : min 2 (t.length + 1 + 1) = 2 := by omega
    show (List.range (min 2 (t.length + 1 + 1))).map (fun i => f ((a :: b :: t).getD i ""))
        = ((a :: b :: t).take 2).map f
    rw [h2]
    rfl

/-- Counterexample for C9 as stated: the code normalizes an OCR word by
trimming it and deleting space characters only, not all whitespace — a word
with an internal tab whose spec-normalized form contains the keyword gets no
rectangle. -/
theorem c9_counterexample :
    specMatched ["ab"] ("a\tb") = true
    ∧ highlight_keywords_in_image (fun _ => [⟨"a\tb", 1, 2, 3, 4⟩]) ("img") ["ab"] = some [] := by
  exact ⟨by decide, by decide⟩

/-- Claim C9 (amended): with an empty keyword list no highlighting work is
performed and the highlighted-image list is empty; with keywords present
exactly the first min(2, number of images) images are processed, and a
rectangle is drawn over exactly the OCR words whose trimmed, space-stripped,
lowercased text contains some space-stripped, lowercased keyword as a
substring. -/
theorem c9_amended (ocr : String → List OcrWord) (imgs : List String) (kws : List String) :
    (kws = [] → annotateStage ocr imgs kws = some [])
    ∧ (kws ≠ [] → annotateStage ocr imgs kws
        = sequenceOpt ((imgs.take 2).map (fun b => highlight_keywords_in_image ocr b kws)))
    ∧ (∀ b : String, dataUrlHead b = false →
        highlight_keywords_in_image ocr b kws
          = some (((ocr b).filter (fun w => wordMatched kws w.text)).map mkRect)) := by
  refine ⟨?_, ?_, ?_⟩
  · intro h
    subst h
    rfl
  · intro h
    have hk : kws.isEmpty = false := by
      cases kws with
      | nil => exact absurd rfl h
      | cons a t => rfl
    have h1 : annotateStage ocr imgs kws
        = sequenceOpt ((List.range (min 2 imgs.length)).map
            (fun i => highlight_keywords_in_image ocr (imgs.getD i "") kws)) := by
      unfold annotateStage
      rw [hk]
      rfl
    rw [h1, rangeMinTwoMap imgs (fun b => highlight_keywords_in_image ocr b kws)]
  · intro b hb
    have hs : stripDataUrl b = some b := by
      unfold stripDataUrl
      rw [hb]
      rfl
    unfold highlight_keywords_in_image
    rw [hs]

/-- Witness for C9 (amended) at a concrete non-empty keyword list. -/
theorem c9_amended_witness :
    annotateStage ocrSample ["i1", "i2", "i3"] ["revenue"]
      = sequenceOpt ((["i1", "i2", "i3"].take 2).map
          (fun b => highlight_keywords_in_image ocrSample b ["revenue"])) :=
  (c9_amended ocrSample ["i1", "i2", "i3"] ["revenue"]).2.1 (by decide)

/- ---------------------------------------------------------------------------
Claims C1, C2, C3
--------------------------------------------------------------------------- -/

/-- Claim C1: the retry policy does not hold for every conversation.  For a
single-message conversation a retryable 503 from the answer-synthesis call
makes query_rag raise UnboundLocalError (retry_delay is assigned only in the
len(messages) > 1 branch) instead of sleeping 0.5 s and retrying.  For a
multi-turn conversation the loop does behave as claimed: 503 twice then
success yields the success result after exactly 2 retries and 2 sleeps. -/
theorem c1_retry_unbound :
    (queryRag ⟨["q"], [], [.apiError 503, .success "ans"], [], fun _ => []⟩).2
      = .error .unboundLocal
    ∧ queryRag ⟨["prior turn", "current turn"], [.success "ctx"],
        [.apiError 503, .apiError 503, .success "Answer."], [], fun _ => []⟩
      = (⟨1, 0, some ("ctx\ncurrent turn"), 1, 3, 2⟩,
         .ok [("answer", .s "Answer."), ("highlighted_images", .imgs [])]) :=
  ⟨rfl, rfl⟩

/-- Claim C2: a successful query returns a dict with exactly the keys answer
and highlighted_images — the (doc_id, page) of the top search result is never
surfaced, there is no citation field. -/
theorem c2_no_citation :
    (queryRag ⟨["What was Q3 revenue?"], [], [.success "Revenue was $10M."],
        [⟨1, 3, "img1"⟩], fun _ => []⟩).2
      = .ok [("answer", .s "Revenue was $10M."), ("highlighted_images", .imgs [])]
    ∧ ("citation" : String) ∉ (["answer", "highlighted_images"] : List String)
    ∧ ("docId" : String) ∉ (["answer", "highlighted_images"] : List String)
    ∧ ("page" : String) ∉ (["answer", "highlighted_images"] : List String) := by
  exact ⟨rfl, by decide, by decide, by decide⟩

/-- Claim C3: an empty message list makes query_rag fail with IndexError from
messages[-1] (not a NoMessages validation rejection), and no context LLM
call, no search call and no synthesis LLM call is made. -/
theorem c3_empty_messages (cs as : List LLMOutcome) (rs : List SearchResult)
    (ocr : String → List OcrWord) :
    queryRag ⟨[], cs, as, rs, ocr⟩ = (emptyTrace, .error .indexError)
    ∧ emptyTrace.ctxCalls = 0 ∧ emptyTrace.searchCalls = 0 ∧ emptyTrace.ansCalls = 0 :=
  ⟨rfl, rfl, rfl, rfl⟩

/- ---------------------------------------------------------------------------
Claim C4
--------------------------------------------------------------------------- -/

/-- Claim C4: for a conversation with exactly one message the compression
step issues zero LLM calls and the search query is the current turn
unchanged, whatever the scripts, retrieval results and OCR oracle are. -/
theorem c4_single_message (m : String) (cs as : List LLMOutcome) (rs : List SearchResult)
    (ocr : String → List OcrWord) :
    (queryRag ⟨[m], cs, as, rs, ocr⟩).1.ctxCalls = 0
    ∧ (queryRag ⟨[m], cs, as, rs, ocr⟩).1.searchQuery = some m := by
  have h3 : ([m] : List String).getLast? = some m := rfl
  have h1 : ctxStage [m] cs = ⟨"", 0, 0, none⟩ := rfl
  have h2 : combineQuery "" m = m := rfl
  have h4 : (decide (([m] : List String).length > 1)) = false := rfl
  simp only [queryRag, h3, h1, h2, h4]
  rcases hr : runRetry false as with ⟨c, n⟩ | ⟨e, k⟩
  · dsimp only
    rcases ha : annotateStage ocr (rs.map (fun r => r.base64)) (extract_keywords c) with _ | hs
    · rw [ha]
      exact ⟨rfl, rfl⟩
    · rw [ha]
      exact ⟨rfl, rfl⟩
  · exact ⟨rfl, rfl⟩
